import Mathlib

/-!
Verification of the parkrun milestone detector (`main.py`).

The source is a small scraper: `detect_milestones` walks backward over the
most recent events of one parkrun location, fetching each event's results
page, filtering finishers through `check_milestone`, and accumulating the
qualifying finishers into an insertion-ordered dictionary keyed by
`generate_key`.

Shallow embedding choices:
  - The network-and-parse boundary (`requests.get`, status assertion,
    BeautifulSoup extraction) is modelled by an abstract site
    `getPage : String → Option PageData`: `none` stands for any retrieval
    or parse failure (which the Python code turns into an uncaught
    exception aborting the scan), `some page` for a successfully parsed
    page with its result rows and the event number read from the page
    header.
  - A Python `Parkrunner` dict is a structure; the scanner's mutation
    `celebrant["data-event-id"] = event_id` becomes a functional record
    update.
  - The insertion-ordered Python dict becomes an association list to which
    new keys are appended.
  - Python integer event ids are `Int` (the code decrements them and the
    falsy check `if not event_id` distinguishes `0` from negative values);
    run counts are `Nat`.
  - The loop `for _ in range(events_limit)` becomes structural recursion
    on the remaining iteration count; the loop body additionally counts
    the fetches it performs so that fetch-count observations can be
    stated.
-/

/-- One result row (`Parkrunner` TypedDict in `main.py`): fields
`data-runs`, `data-name`, `data-agegroup`, and the scanner-stamped
`data-event-id` (0 until stamped). -/
structure Parkrunner where
  runs : Nat
  name : String
  agegroup : String
  eventId : Int
  deriving DecidableEq

/-- `SUPPORTED_MILESTONES` from `main.py`. -/
def SUPPORTED_MILESTONES : List Nat := [25, 50, 100, 250, 500]

/-- `SUPPORTED_JUNIOR_MILESTONES` from `main.py`. -/
def SUPPORTED_JUNIOR_MILESTONES : List Nat := [10]

/-- `generate_key` from `main.py`: the f-string
`f"{runs}-{name}-{agegroup}"`. -/
def generate_key (parkrunner : Parkrunner) : String :=
  toString parkrunner.runs ++ "-" ++ parkrunner.name ++ "-" ++ parkrunner.agegroup

/-- Python's `s.startswith("J")`: true iff the first character of `s`
is `'J'` (the tested pattern has length one, so this is exact). -/
def startswithJ (s : String) : Bool :=
  match s.data with
  | [] => false
  | c :: _ => c == 'J'

/-- `check_milestone` from `main.py`. -/
def check_milestone (parkrunner : Parkrunner) : Bool :=
  let runs_count := parkrunner.runs + 1
  SUPPORTED_MILESTONES.contains runs_count
    || ((startswithJ parkrunner.agegroup || parkrunner.agegroup == "")
        && SUPPORTED_JUNIOR_MILESTONES.contains runs_count)

/-- `LocationEnum` from `main.py`. -/
inductive LocationEnum where
  | CYTADELA
  | LAS_DEBINSKI
  deriving DecidableEq

/-- The `value` of each `LocationEnum` member. -/
def LocationEnum.value : LocationEnum → String
  | .CYTADELA => "poznan"
  | .LAS_DEBINSKI => "lasdebinski"

def PARKRUN_BASE_URL : String := "http://www.parkrun.pl/"

/-- `LATEST_RESULTS_URL_TEMPLATE` instantiated at a location value. -/
def latestResultsUrl (location : String) : String :=
  PARKRUN_BASE_URL ++ location ++ "/results/latestresults/"

/-- `EVENT_RESULTS_URL_TEMPLATE` instantiated at a location value and an
event id. -/
def eventResultsUrl (location : String) (event_id : Int) : String :=
  PARKRUN_BASE_URL ++ location ++ "/results/" ++ toString event_id ++ "/"

/-- A successfully retrieved and parsed results page: the table rows and
the event number shown in the `Results-header` (used only when the page
was requested as "latest"). -/
structure PageData where
  rows : List Parkrunner
  headerEventId : Int
  deriving DecidableEq

/-- The retrieval boundary: maps a URL to a parsed page, or `none` for
any retrieval/parse failure. -/
abbrev Site := String → Option PageData

/-- `fetch_upcoming_milestones_from_event` from `main.py`, over an
abstract site.  `event_id` is `Optional[int]`; the Python truthiness test
`if event_id:` is false for both `None` and `0`, so both select the
latest-results URL and re-resolve the event id from the page header.
A failed retrieval/parse (`none` page) aborts with no result, mirroring
the uncaught `assert`/attribute errors in the source. -/
def fetch_upcoming_milestones_from_event (getPage : Site) (location : LocationEnum)
    (event_id : Option Int) : Option (List Parkrunner × Int) :=
  let url :=
    match event_id with
    | some i => if i ≠ 0 then eventResultsUrl location.value i else latestResultsUrl location.value
    | none => latestResultsUrl location.value
  match getPage url with
  | none => none
  | some page =>
    let next_celebrants := page.rows.filter check_milestone
    let resolved :=
      match event_id with
      | some i => if i ≠ 0 then i else page.headerEventId
      | none => page.headerEventId
    some (next_celebrants, resolved)

/-- The scanner's accumulating dict `all_celebrants`: an insertion-ordered
map from `generate_key` strings to stamped records. -/
abbrev HMap := List (String × Parkrunner)

/-- Dict lookup (first binding of the key). -/
def hfind : HMap → String → Option Parkrunner
  | [], _ => none
  | (k, v) :: rest, key => if k = key then some v else hfind rest key

/-- Dict insertion of a fresh key: Python dicts append new keys in
insertion order. -/
def hinsert (m : HMap) (k : String) (v : Parkrunner) : HMap := m ++ [(k, v)]

/-- `list(d.values())` of the accumulating dict. -/
def hvalues (m : HMap) : List Parkrunner := m.map Prod.snd

/-- The body of the inner loop of `detect_milestones` (lines 79-82) for a
single celebrant: if the key is absent, stamp `data-event-id` and insert;
otherwise discard. -/
def addCelebrant (event_id : Int) (m : HMap) (celebrant : Parkrunner) : HMap :=
  let parkrunner_key := generate_key celebrant
  if (hfind m parkrunner_key).isSome then m
  else hinsert m parkrunner_key { celebrant with eventId := event_id }

/-- Stable insertion of a record into a run-count-sorted list: the new
record goes in front of the first element with a run count ≥ its own. -/
def insertByRuns (a : Parkrunner) : List Parkrunner → List Parkrunner
  | [] => [a]
  | b :: bs => if a.runs ≤ b.runs then a :: b :: bs else b :: insertByRuns a bs

/-- `sorted(next_celebrants, key=lambda x: int(x["data-runs"]))`: stable
ascending sort by run count, modelled as stable insertion sort (Python's
`sorted` is specified exactly by stability plus key order, so any stable
sort produces the identical list). -/
def sortCelebrants : List Parkrunner → List Parkrunner
  | [] => []
  | c :: cs => insertByRuns c (sortCelebrants cs)

/-- The inner loop of `detect_milestones` over one event's celebrants. -/
def addCelebrants (event_id : Int) (m : HMap) (cs : List Parkrunner) : HMap :=
  (sortCelebrants cs).foldl (addCelebrant event_id) m

/-- The `for _ in range(events_limit)` loop of `detect_milestones`:
fetch, fold in the celebrants, decrement the id, `break` when the
decremented id is falsy (exactly 0).  The final `Nat` counts the fetches
performed; a failed fetch aborts the whole loop with `none`. -/
def scanLoop (getPage : Site) (location : LocationEnum) :
    Nat → Option Int → HMap → Nat → Option (HMap × Nat)
  | 0, _, all_celebrants, fetches => some (all_celebrants, fetches)
  | fuel + 1, event_id, all_celebrants, fetches =>
    match fetch_upcoming_milestones_from_event getPage location event_id with
    | none => none
    | some (next_celebrants, resolved) =>
      let acc := addCelebrants resolved all_celebrants next_celebrants
      let next_id := resolved - 1
      if next_id = 0 then some (acc, fetches + 1)
      else scanLoop getPage location fuel (some next_id) acc (fetches + 1)

/-- `detect_milestones` from `main.py`: run the scan loop from "latest"
with an empty dict and return `list(all_celebrants.values())`, or `none`
if any fetch failed. -/
def detect_milestones (getPage : Site) (location : LocationEnum) (events_limit : Nat) :
    Option (List Parkrunner) :=
  (scanLoop getPage location events_limit none [] 0).map (fun r => hvalues r.1)

/-- Number of fetches a scan performs (`none` if the scan aborts). -/
def fetchCount (getPage : Site) (location : LocationEnum) (events_limit : Nat) : Option Nat :=
  (scanLoop getPage location events_limit none [] 0).map Prod.snd

/-- The sequence of `event_id` arguments the scan loop passes to
`fetch_upcoming_milestones_from_event`, in order (`none` = "latest"). -/
def scanTrace (getPage : Site) (location : LocationEnum) :
    Nat → Option Int → List (Option Int)
  | 0, _ => []
  | fuel + 1, event_id =>
    event_id ::
      match fetch_upcoming_milestones_from_event getPage location event_id with
      | none => []
      | some (_, resolved) =>
        if resolved - 1 = 0 then [] else scanTrace getPage location fuel (some (resolved - 1))

/-- Whether some fetch along the scan's execution fails. -/
def scanFails (getPage : Site) (location : LocationEnum) : Nat → Option Int → Bool
  | 0, _ => false
  | fuel + 1, event_id =>
    match fetch_upcoming_milestones_from_event getPage location event_id with
    | none => true
    | some (_, resolved) =>
      if resolved - 1 = 0 then false else scanFails getPage location fuel (some (resolved - 1))

/-- A fetch argument that is "latest" or a positive event id. -/
def idPositive : Option Int → Bool
  | none => true
  | some i => 0 < i

/-! ### Concrete fetcher models used by the closed theorems -/

/-- Fetcher model for the spec's end-to-end example: latest event is 10
with records A (24 runs, empty age group) and B (49 runs, SW30); event 9
holds A with 23 runs. -/
def site9 : Site := fun url =>
  if url = latestResultsUrl "poznan" then
    some ⟨[⟨24, "A", "", 0⟩, ⟨49, "B", "SW30", 0⟩], 10⟩
  else if url = eventResultsUrl "poznan" 9 then
    some ⟨[⟨23, "A", "", 0⟩], 9⟩
  else none

/-- Fetcher model with exactly three existing events (ids 3, 2, 1). -/
def site8 : Site := fun url =>
  if url = latestResultsUrl "poznan" then some ⟨[⟨49, "C", "SM30-34", 0⟩], 3⟩
  else if url = eventResultsUrl "poznan" 2 then some ⟨[], 7⟩
  else if url = eventResultsUrl "poznan" 1 then some ⟨[], 7⟩
  else none

/-- Adversarial fetcher model whose latest page resolves to event id 0,
and which also serves a page for event id -1. -/
def site2 : Site := fun url =>
  if url = latestResultsUrl "poznan" then some ⟨[], 0⟩
  else if url = eventResultsUrl "poznan" (-1) then some ⟨[⟨24, "N", "", 0⟩], 99⟩
  else none

/-- Fetcher model where the same (runs, name, ageGroup) triple appears in
two consecutive events (ids 5 and 4). -/
def site4 : Site := fun url =>
  if url = latestResultsUrl "poznan" then some ⟨[⟨24, "A", "", 0⟩], 5⟩
  else if url = eventResultsUrl "poznan" 4 then some ⟨[⟨24, "A", "", 0⟩], 4⟩
  else none

/-! ### Shared helper lemmas -/

lemma hfind_hinsert (m : HMap) (k : String) (v : Parkrunner) (key : String)
    (w : Parkrunner) (h : hfind m key = some w) : hfind (hinsert m k v) key = some w := by
  induction m with
  | nil => simp [hfind] at h
  | cons a rest ih =>
    obtain ⟨ka, va⟩ := a
    by_cases hka : ka = key
    · simp [hfind, hka] at h
      simp [hinsert, hfind, hka, h]
    · simp [hfind, hka] at h
      have := ih h
      simpa [hinsert, hfind, hka] using this

lemma addCelebrant_preserves (e : Int) (m : HMap) (c : Parkrunner) (key : String)
    (w : Parkrunner) (h : hfind m key = some w) :
    hfind (addCelebrant e m c) key = some w := by
  unfold addCelebrant
  by_cases hs : (hfind m (generate_key c)).isSome
  · simpa [hs] using h
  · simp only [hs, if_false, Bool.false_eq_true]
    exact hfind_hinsert m _ _ key w h

lemma foldl_addCelebrant_preserves (e : Int) (cs : List Parkrunner) :
    ∀ (m : HMap) (key : String) (w : Parkrunner), hfind m key = some w →
      hfind (cs.foldl (addCelebrant e) m) key = some w := by
  induction cs with
  | nil => intro m key w h; exact h
  | cons c rest ih =>
    intro m key w h
    exact ih _ key w (addCelebrant_preserves e m c key w h)

lemma addCelebrants_preserves (e : Int) (m : HMap) (cs : List Parkrunner) (key : String)
    (w : Parkrunner) (h : hfind m key = some w) :
    hfind (addCelebrants e m cs) key = some w :=
  foldl_addCelebrant_preserves e (sortCelebrants cs) m key w h

lemma scanLoop_preserves (gp : Site) (loc : LocationEnum) :
    ∀ (fuel : Nat) (eid : Option Int) (m : HMap) (fc : Nat) (m' : HMap) (fc' : Nat),
      scanLoop gp loc fuel eid m fc = some (m', fc') →
      ∀ (key : String) (w : Parkrunner), hfind m key = some w → hfind m' key = some w := by
  intro fuel
  induction fuel with
  | zero =>
    intro eid m fc m' fc' h key w hm
    simp only [scanLoop, Option.some.injEq, Prod.mk.injEq] at h
    exact h.1 ▸ hm
  | succ n ih =>
    intro eid m fc m' fc' h key w hm
    cases hf : fetch_upcoming_milestones_from_event gp loc eid with
    | none => simp [scanLoop, hf] at h
    | some pr =>
      obtain ⟨cs, rid⟩ := pr
      simp only [scanLoop, hf] at h
      by_cases hz : rid - 1 = 0
      · rw [if_pos hz] at h
        simp only [Option.some.injEq, Prod.mk.injEq] at h
        exact h.1 ▸ addCelebrants_preserves rid m cs key w hm
      · rw [if_neg hz] at h
        exact ih _ _ _ _ _ h key w (addCelebrants_preserves rid m cs key w hm)

lemma scanLoop_none_iff (gp : Site) (loc : LocationEnum) :
    ∀ (fuel : Nat) (eid : Option Int) (m : HMap) (fc : Nat),
      scanLoop gp loc fuel eid m fc = none ↔ scanFails gp loc fuel eid = true := by
  intro fuel
  induction fuel with
  | zero => intro eid m fc; simp [scanLoop, scanFails]
  | succ n ih =>
    intro eid m fc
    cases hf : fetch_upcoming_milestones_from_event gp loc eid with
    | none => simp [scanLoop, scanFails, hf]
    | some pr =>
      obtain ⟨cs, rid⟩ := pr
      by_cases hz : rid - 1 = 0
      · simp [scanLoop, scanFails, hf, hz]
      · simp only [scanLoop, scanFails, hf, if_neg hz]
        exact ih _ _ _

lemma fetch_some_resolved_pos (gp : Site) (loc : LocationEnum) (eid : Option Int)
    (cs : List Parkrunner) (rid : Int)
    (hf : fetch_upcoming_milestones_from_event gp loc eid = some (cs, rid))
    (hpos : ∀ (l : String) (page : PageData),
      gp (latestResultsUrl l) = some page → 0 < page.headerEventId)
    (hid : idPositive eid = true) : 0 < rid := by
  cases eid with
  | none =>
    simp only [fetch_upcoming_milestones_from_event] at hf
    cases hg : gp (latestResultsUrl loc.value) with
    | none => rw [hg] at hf; simp at hf
    | some page =>
      rw [hg] at hf
      simp only [Option.some.injEq, Prod.mk.injEq] at hf
      exact hf.2 ▸ hpos loc.value page hg
  | some i =>
    have hi : 0 < i := by simpa [idPositive] using hid
    have hne : i ≠ 0 := hi.ne'
    simp only [fetch_upcoming_milestones_from_event, hne, if_true, ne_eq,
      not_false_eq_true, if_pos] at hf
    cases hg : gp (eventResultsUrl loc.value i) with
    | none => rw [hg] at hf; simp at hf
    | some page =>
      rw [hg] at hf
      simp only [Option.some.injEq, Prod.mk.injEq] at hf
      exact hf.2 ▸ hi

lemma scanTrace_all_pos (gp : Site) (loc : LocationEnum)
    (hpos : ∀ (l : String) (page : PageData),
      gp (latestResultsUrl l) = some page → 0 < page.headerEventId) :
    ∀ (fuel : Nat) (eid : Option Int), idPositive eid = true →
      (scanTrace gp loc fuel eid).all idPositive = true := by
  intro fuel
  induction fuel with
  | zero => intro eid h; simp [scanTrace]
  | succ n ih =>
    intro eid h
    cases hf : fetch_upcoming_milestones_from_event gp loc eid with
    | none => simp [scanTrace, hf, h]
    | some pr =>
      obtain ⟨cs, rid⟩ := pr
      have hr : 0 < rid := fetch_some_resolved_pos gp loc eid cs rid hf hpos h
      by_cases hz : rid - 1 = 0
      · simp [scanTrace, hf, hz, h]
      · have hnext : idPositive (some (rid - 1)) = true := by
          simp only [idPositive, decide_eq_true_eq]
          omega
        simp [scanTrace, hf, hz, h, ih _ hnext]

lemma startswithJ_iff (s : String) : startswithJ s = true ↔ s.data.head? = some 'J' := by
  unfold startswithJ
  cases s.data with
  | nil => simp
  | cons c cs => simp

lemma digitChar_ne_dash : ∀ d, d < 10 → Nat.digitChar d ≠ '-' := by decide

lemma digitChar_injOn : ∀ a, a < 10 → ∀ b, b < 10 → Nat.digitChar a = Nat.digitChar b → a = b := by
  decide

lemma toDigitsCore_succ (f n : Nat) (ds : List Char) :
    Nat.toDigitsCore 10 (f + 1) n ds =
      if n / 10 = 0 then Nat.digitChar (n % 10) :: ds
      else Nat.toDigitsCore 10 f (n / 10) (Nat.digitChar (n % 10) :: ds) := rfl

lemma toDigitsCore_eq :
    ∀ (fuel n : Nat) (ds : List Char), 0 < n → n < fuel →
      Nat.toDigitsCore 10 fuel n ds = ((Nat.digits 10 n).map Nat.digitChar).reverse ++ ds := by
  intro fuel
  induction fuel with
  | zero => intro n ds h0 hf; omega
  | succ f ih =>
    intro n ds h0 hf
    have hd : Nat.digits 10 n = n % 10 :: Nat.digits 10 (n / 10) :=
      Nat.digits_def' (by norm_num) h0
    by_cases hz : n / 10 = 0
    · rw [toDigitsCore_succ, if_pos hz, hd, hz]
      simp
    · have h0' : 0 < n / 10 := Nat.pos_of_ne_zero hz
      have hlt : n / 10 < f := by
        have : n / 10 < n := Nat.div_lt_self h0 (by norm_num)
        omega
      rw [toDigitsCore_succ, if_neg hz,
        ih (n / 10) (Nat.digitChar (n % 10) :: ds) h0' hlt, hd]
      simp

lemma toDigits_ten_eq (n : Nat) (h0 : 0 < n) :
    Nat.toDigits 10 n = ((Nat.digits 10 n).map Nat.digitChar).reverse := by
  unfold Nat.toDigits
  rw [toDigitsCore_eq (n + 1) n [] h0 (Nat.lt_succ_self n), List.append_nil]

lemma mem_toDigits_ten (n : Nat) (c : Char) (hc : c ∈ Nat.toDigits 10 n) :
    ∃ d, d < 10 ∧ c = Nat.digitChar d := by
  rcases Nat.eq_zero_or_pos n with h | h
  · subst h
    have : c ∈ ['0'] := hc
    exact ⟨0, by norm_num, by simpa using this⟩
  · rw [toDigits_ten_eq n h] at hc
    simp only [List.mem_reverse, List.mem_map] at hc
    obtain ⟨d, hd, he⟩ := hc
    exact ⟨d, Nat.digits_lt_base (by norm_num) hd, he.symm⟩

lemma dash_not_mem_repr (n : Nat) : ¬ '-' ∈ (Nat.repr n).data := by
  intro h
  have h' : '-' ∈ Nat.toDigits 10 n := h
  obtain ⟨d, hd, he⟩ := mem_toDigits_ten n _ h'
  exact digitChar_ne_dash d hd he.symm

lemma map_digitChar_inj :
    ∀ (l1 l2 : List Nat), (∀ x ∈ l1, x < 10) → (∀ x ∈ l2, x < 10) →
      l1.map Nat.digitChar = l2.map Nat.digitChar → l1 = l2 := by
  intro l1
  induction l1 with
  | nil =>
    intro l2 _ _ h
    cases l2 with
    | nil => rfl
    | cons b t2 => simp at h
  | cons a t ih =>
    intro l2 h1 h2 h
    cases l2 with
    | nil => simp at h
    | cons b t2 =>
      simp only [List.map_cons, List.cons.injEq] at h
      have ha : a = b :=
        digitChar_injOn a (h1 a (by simp)) b (h2 b (by simp)) h.1
      have ht : t = t2 :=
        ih t2 (fun x hx => h1 x (by simp [hx])) (fun x hx => h2 x (by simp [hx])) h.2
      rw [ha, ht]

lemma repr_inj_nat : ∀ m n : Nat, Nat.repr m = Nat.repr n → m = n := by
  have key : ∀ n : Nat, 0 < n → Nat.toDigits 10 n = ['0'] → False := by
    intro n hn hd
    rw [toDigits_ten_eq n hn] at hd
    have hmap : (Nat.digits 10 n).map Nat.digitChar = ['0'] := by
      have := congrArg List.reverse hd
      simpa using this
    have hdig : Nat.digits 10 n = [0] :=
      map_digitChar_inj _ [0] (fun x hx => Nat.digits_lt_base (by norm_num) hx)
        (by simp) (by simpa using hmap)
    have := Nat.ofDigits_digits 10 n
    rw [hdig] at this
    simp [Nat.ofDigits] at this
    omega
  intro m n h
  have hdata : Nat.toDigits 10 m = Nat.toDigits 10 n := congrArg String.data h
  rcases Nat.eq_zero_or_pos m with hm | hm <;> rcases Nat.eq_zero_or_pos n with hn | hn
  · omega
  · exact absurd (hdata.symm.trans (by subst hm; rfl)) (fun he => key n hn he)
  · exact absurd (hdata.trans (by subst hn; rfl)) (fun he => key m hm he)
  · rw [toDigits_ten_eq m hm, toDigits_ten_eq n hn] at hdata
    have h1 := List.reverse_injective hdata
    have h2 := map_digitChar_inj _ _ (fun x hx => Nat.digits_lt_base (by norm_num) hx)
      (fun x hx => Nat.digits_lt_base (by norm_num) hx) h1
    have h3 := congrArg (Nat.ofDigits 10) h2
    simpa [Nat.ofDigits_digits] using h3

lemma sep_split :
    ∀ (xs1 ys1 xs2 ys2 : List Char), ¬ '-' ∈ xs1 → ¬ '-' ∈ xs2 →
      xs1 ++ '-' :: ys1 = xs2 ++ '-' :: ys2 → xs1 = xs2 ∧ ys1 = ys2 := by
  intro xs1
  induction xs1 with
  | nil =>
    intro ys1 xs2 ys2 _ h2 h
    cases xs2 with
    | nil => simpa using h
    | cons b t2 =>
      simp only [List.nil_append, List.cons_append, List.cons.injEq] at h
      exact absurd (h.1 ▸ List.mem_cons_self b t2) h2
  | cons a t ih =>
    intro ys1 xs2 ys2 h1 h2 h
    cases xs2 with
    | nil =>
      simp only [List.nil_append, List.cons_append, List.cons.injEq] at h
      exact absurd (h.1 ▸ List.mem_cons_self a t) h1
    | cons b t2 =>
      simp only [List.cons_append, List.cons.injEq] at h
      obtain ⟨hab, hrest⟩ := h
      have hr := ih ys1 t2 ys2 (fun hm => h1 (List.mem_cons_of_mem a hm))
        (fun hm => h2 (List.mem_cons_of_mem b hm)) hrest
      exact ⟨by rw [hab, hr.1], hr.2⟩

lemma string_eq_of_data (s t : String) (h : s.data = t.data) : s = t := by
  cases s; cases t; exact congrArg String.mk h

lemma string_data_append (s t : String) : (s ++ t).data = s.data ++ t.data := rfl

/-! ### Claim theorems -/

/-- Claim C1 (counterexample): de-duplication is NOT keyed exactly by the
participant triple.  The records (24, "a", "b-c") and (24, "a-b", "c")
have different triples (their names differ) yet `generate_key` collides,
and the scanner's accumulation step merges them into a single entry. -/
theorem dedup_key_not_injective_on_triples :
    (⟨24, "a", "b-c", 0⟩ : Parkrunner).name ≠ (⟨24, "a-b", "c", 0⟩ : Parkrunner).name ∧
    generate_key ⟨24, "a", "b-c", 0⟩ = generate_key ⟨24, "a-b", "c", 0⟩ ∧
    hvalues (addCelebrant 7 (addCelebrant 7 [] ⟨24, "a", "b-c", 0⟩) ⟨24, "a-b", "c", 0⟩) =
      [⟨24, "a", "b-c", 7⟩] := by
  decide

/-- Claim C1 (amended): de-duplication is keyed by the rendered string
`"{runs}-{name}-{agegroup}"`.  Records with equal (runCount, displayName,
ageGroup) triples always obtain equal keys, and the accumulation step
treats two records as the same milestone occurrence (one resulting map
entry instead of two) exactly when their rendered keys are equal; the key
function is not injective on all triples, since the rendering does not
escape the separator `"-"` inside the name or age-group fields, but it is
injective on records whose displayName contains no `"-"` (run-count
digits never contain `"-"`, so the first two separators are then
unambiguous). -/
theorem dedup_key_equality :
    (∀ p q : Parkrunner, p.runs = q.runs → p.name = q.name → p.agegroup = q.agegroup →
      generate_key p = generate_key q) ∧
    (∀ (event_id : Int) (p q : Parkrunner),
      (hvalues (addCelebrant event_id (addCelebrant event_id [] p) q)).length = 1 ↔
        generate_key p = generate_key q) ∧
    (∀ p q : Parkrunner, ¬ '-' ∈ p.name.data → ¬ '-' ∈ q.name.data →
      generate_key p = generate_key q →
      p.runs = q.runs ∧ p.name = q.name ∧ p.agegroup = q.agegroup) := by
  refine ⟨?_, ?_, ?_⟩
  · intro p q h1 h2 h3
    simp [generate_key, h1, h2, h3]
  · intro e p q
    by_cases hk : generate_key p = generate_key q
    · simp [addCelebrant, hfind, hinsert, hvalues, hk]
    · simp [addCelebrant, hfind, hinsert, hvalues, hk]
  · intro p q hp hq h
    have hd : (Nat.repr p.runs).data ++ '-' :: (p.name.data ++ '-' :: p.agegroup.data) =
        (Nat.repr q.runs).data ++ '-' :: (q.name.data ++ '-' :: q.agegroup.data) := by
      have h' := congrArg String.data h
      simpa [generate_key, string_data_append, toString] using h'
    obtain ⟨hr, hrest⟩ :=
      sep_split _ _ _ _ (dash_not_mem_repr p.runs) (dash_not_mem_repr q.runs) hd
    obtain ⟨hn, ha⟩ := sep_split _ _ _ _ hp hq hrest
    exact ⟨repr_inj_nat _ _ (string_eq_of_data _ _ hr),
      string_eq_of_data _ _ hn, string_eq_of_data _ _ ha⟩

/-- Witness for `dedup_key_equality` at concrete records. -/
theorem dedup_key_equality_witness :
    generate_key ⟨25, "n", "SM30-34", 0⟩ = generate_key ⟨25, "n", "SM30-34", 0⟩ ∧
    (hvalues (addCelebrant 5 (addCelebrant 5 [] ⟨24, "x", "", 0⟩) ⟨24, "x", "", 0⟩)).length = 1 ∧
    (¬ '-' ∈ ("n" : String).data) ∧
    (⟨25, "n", "SM30-34", 0⟩ : Parkrunner).name = (⟨25, "n", "SM30-34", 0⟩ : Parkrunner).name :=
  ⟨dedup_key_equality.1 ⟨25, "n", "SM30-34", 0⟩ ⟨25, "n", "SM30-34", 0⟩ rfl rfl rfl,
    (dedup_key_equality.2.1 5 ⟨24, "x", "", 0⟩ ⟨24, "x", "", 0⟩).mpr rfl,
    by decide,
    (dedup_key_equality.2.2 ⟨25, "n", "SM30-34", 0⟩ ⟨25, "n", "SM30-34", 0⟩
      (by decide) (by decide) rfl).2.1⟩

/-- Claim C2 (counterexample): the loop does not stop on a negative
decremented id.  With a fetcher whose latest page resolves to event id 0,
the decremented id is -1 (negative), yet the scan performs a second fetch
with event id -1 — the trace of fetch arguments is [latest, -1], two
fetches happen, and the result is stamped with event id -1. -/
theorem scan_fetches_nonpositive_id :
    scanTrace site2 LocationEnum.CYTADELA 2 none = [none, some (-1)] ∧
    idPositive (some (-1)) = false ∧
    fetchCount site2 LocationEnum.CYTADELA 2 = some 2 ∧
    detect_milestones site2 LocationEnum.CYTADELA 2 = some [⟨24, "N", "", -1⟩] := by
  decide

/-- Claim C2 (amended): the loop's early stop fires exactly when the
decremented id equals 0; provided the fetcher resolves only positive
event ids on latest-results pages (as real event numbering does), every
fetch the scan performs is for "latest" or for a positive event id, so a
fetch is never attempted for a non-positive id and the early stop
overrides the eventsLimit bound. -/
theorem scan_ids_positive :
    ∀ (getPage : Site) (location : LocationEnum) (events_limit : Nat),
    (∀ (l : String) (page : PageData),
      getPage (latestResultsUrl l) = some page → 0 < page.headerEventId) →
    (scanTrace getPage location events_limit none).all idPositive = true := by
  intro getPage location events_limit hpos
  exact scanTrace_all_pos getPage location hpos events_limit none rfl

/-- Witness for `scan_ids_positive` at the three-event fetcher model. -/
theorem scan_ids_positive_witness :
    (scanTrace site8 LocationEnum.CYTADELA 100 none).all idPositive = true := by
  apply scan_ids_positive site8 LocationEnum.CYTADELA 100
  intro l page h
  unfold site8 at h
  split at h
  · cases h; decide
  · split at h
    · cases h; decide
    · split at h
      · cases h; decide
      · cases h

/-- Claim C3: `check_milestone` returns true iff runCount + 1 lies in the
senior set {25,50,100,250,500}, or the age group starts with "J" or is
empty and runCount + 1 lies in the junior set {10}; a record with empty
age group and 9 runs is accepted, the same run count with age group
"SM35-39" is rejected, and runCount + 1 = 24 is always rejected. -/
theorem check_milestone_spec :
    (∀ p : Parkrunner, check_milestone p = true ↔
      (p.runs + 1 ∈ ([25, 50, 100, 250, 500] : List Nat) ∨
        ((p.agegroup.data.head? = some 'J' ∨ p.agegroup = "") ∧
          p.runs + 1 ∈ ([10] : List Nat)))) ∧
    check_milestone ⟨9, "X", "", 0⟩ = true ∧
    check_milestone ⟨9, "X", "SM35-39", 0⟩ = false ∧
    (∀ p : Parkrunner, p.runs = 23 → check_milestone p = false) := by
  refine ⟨?_, by decide, by decide, ?_⟩
  · intro p
    simp [check_milestone, SUPPORTED_MILESTONES, SUPPORTED_JUNIOR_MILESTONES, ← startswithJ_iff]
  · intro p h
    simp [check_milestone, SUPPORTED_MILESTONES, SUPPORTED_JUNIOR_MILESTONES, h]

/-- Witness for `check_milestone_spec` at a concrete record with 23 prior
runs. -/
theorem check_milestone_spec_witness :
    (⟨23, "Z", "SM20-24", 0⟩ : Parkrunner).runs = 23 ∧
    check_milestone ⟨23, "Z", "SM20-24", 0⟩ = false ∧
    (check_milestone ⟨24, "Z", "SM20-24", 0⟩ = true ↔
      ((⟨24, "Z", "SM20-24", 0⟩ : Parkrunner).runs + 1 ∈ ([25, 50, 100, 250, 500] : List Nat) ∨
        (((⟨24, "Z", "SM20-24", 0⟩ : Parkrunner).agegroup.data.head? = some 'J' ∨
            (⟨24, "Z", "SM20-24", 0⟩ : Parkrunner).agegroup = "") ∧
          (⟨24, "Z", "SM20-24", 0⟩ : Parkrunner).runs + 1 ∈ ([10] : List Nat)))) :=
  ⟨rfl, check_milestone_spec.2.2.2 ⟨23, "Z", "SM20-24", 0⟩ rfl,
    check_milestone_spec.1 ⟨24, "Z", "SM20-24", 0⟩⟩

/-- Claim C4: first occurrence wins.  When a qualifying record's key is
already present in the accumulation map, the new record is discarded (the
map is returned unchanged); and scanning two consecutive events that both
contain the triple (24, "A", "") yields exactly one entry, stamped with
the event id 5 of the first (most recently scanned) occurrence. -/
theorem first_occurrence_wins :
    (∀ (event_id : Int) (m : HMap) (c : Parkrunner),
      (hfind m (generate_key c)).isSome = true → addCelebrant event_id m c = m) ∧
    detect_milestones site4 LocationEnum.CYTADELA 2 = some [⟨24, "A", "", 5⟩] := by
  constructor
  · intro e m c h
    simp [addCelebrant, h]
  · decide

/-- Witness for `first_occurrence_wins` at a concrete one-entry map. -/
theorem first_occurrence_wins_witness :
    (hfind [("24-A-", ⟨24, "A", "", 5⟩)] (generate_key ⟨24, "A", "", 0⟩)).isSome = true ∧
    addCelebrant 4 [("24-A-", ⟨24, "A", "", 5⟩)] ⟨24, "A", "", 0⟩ =
      [("24-A-", ⟨24, "A", "", 5⟩)] :=
  ⟨by decide, first_occurrence_wins.1 4 [("24-A-", ⟨24, "A", "", 5⟩)] ⟨24, "A", "", 0⟩ (by decide)⟩

/-- Claim C5: any fetch failure aborts the whole scan with no partial
results and no retry: a scan invocation returns no result collection
(`none`) exactly when some fetch along its execution fails. -/
theorem fetch_failure_aborts_scan :
    ∀ (getPage : Site) (location : LocationEnum) (events_limit : Nat),
      detect_milestones getPage location events_limit = none ↔
        scanFails getPage location events_limit none = true := by
  intro getPage location events_limit
  rw [detect_milestones, ← scanLoop_none_iff getPage location events_limit none [] 0]
  cases h : scanLoop getPage location events_limit none [] 0 <;> simp [h]

/-- Claim C6: the scan is deterministic — two invocations with the same
fetcher model, location and eventsLimit produce identical output
collections (same records, same stamped ids, same order). -/
theorem scan_deterministic :
    ∀ (gp gp' : Site) (loc loc' : LocationEnum) (lim lim' : Nat),
      gp = gp' → loc = loc' → lim = lim' →
      detect_milestones gp loc lim = detect_milestones gp' loc' lim' := by
  intro gp gp' loc loc' lim lim' h1 h2 h3
  subst h1; subst h2; subst h3; rfl

/-- Witness for `scan_deterministic` at the end-to-end fetcher model. -/
theorem scan_deterministic_witness :
    detect_milestones site9 LocationEnum.CYTADELA 2 =
      detect_milestones site9 LocationEnum.CYTADELA 2 :=
  scan_deterministic site9 site9 LocationEnum.CYTADELA LocationEnum.CYTADELA 2 2 rfl rfl rfl

/-- Claim C7: the accumulation map grows monotonically — every binding
present at any point of the scan loop is still present, unchanged (same
record, same stamped event id), in the loop's final map — and the map's
values are the scan's sole output. -/
theorem accumulation_monotone :
    (∀ (getPage : Site) (location : LocationEnum) (fuel : Nat) (eid : Option Int)
        (m : HMap) (fc : Nat) (m' : HMap) (fc' : Nat),
      scanLoop getPage location fuel eid m fc = some (m', fc') →
      ∀ (key : String) (w : Parkrunner), hfind m key = some w → hfind m' key = some w) ∧
    (∀ (getPage : Site) (location : LocationEnum) (events_limit : Nat),
      detect_milestones getPage location events_limit =
        (scanLoop getPage location events_limit none [] 0).map fun r => hvalues r.1) := by
  constructor
  · intro getPage location fuel eid m fc m' fc' h key w hm
    exact scanLoop_preserves getPage location fuel eid m fc m' fc' h key w hm
  · intro getPage location events_limit
    rfl

/-- Witness for `accumulation_monotone`: a pre-existing binding survives
a two-event scan unchanged. -/
theorem accumulation_monotone_witness :
    scanLoop site4 LocationEnum.CYTADELA 2 none [("k0", ⟨1, "Z", "J10", 0⟩)] 0 =
      some ([("k0", ⟨1, "Z", "J10", 0⟩), ("24-A-", ⟨24, "A", "", 5⟩)], 2) ∧
    hfind [("k0", ⟨1, "Z", "J10", 0⟩), ("24-A-", ⟨24, "A", "", 5⟩)] "k0" =
      some ⟨1, "Z", "J10", 0⟩ :=
  ⟨by decide,
    accumulation_monotone.1 site4 LocationEnum.CYTADELA 2 none
      [("k0", ⟨1, "Z", "J10", 0⟩)] 0
      [("k0", ⟨1, "Z", "J10", 0⟩), ("24-A-", ⟨24, "A", "", 5⟩)] 2
      (by decide) "k0" ⟨1, "Z", "J10", 0⟩ (by decide)⟩

/-- Claim C8: early termination — with a fetcher model whose latest event
id resolves to 3 (events 3, 2, 1 exist), a scan with eventsLimit = 100
performs exactly 3 fetches and stops without error. -/
theorem early_termination_fetch_count :
    fetchCount site8 LocationEnum.CYTADELA 100 = some 3 ∧
    detect_milestones site8 LocationEnum.CYTADELA 100 = some [⟨49, "C", "SM30-34", 3⟩] := by
  decide

/-- Claim C9: end-to-end example — with the stub returning for latest
event 10 the records A (24 runs, empty age group) and B (49 runs, SW30)
and for event 9 the record A with 23 runs, a scan with eventsLimit = 2
returns exactly the two entries A (24 runs) and B (49 runs), both stamped
with event id 10. -/
theorem end_to_end_example :
    detect_milestones site9 LocationEnum.CYTADELA 2 =
      some [⟨24, "A", "", 10⟩, ⟨49, "B", "SW30", 10⟩] := by
  decide

/-- Claim C10: calling the fetch operation with event id 0 behaves
identically to calling it with the event id absent: the Python truthiness
test makes 0 a sentinel for "latest", so both fetch the latest-results
page and re-resolve the event id from its header. -/
theorem event_id_zero_means_latest :
    ∀ (getPage : Site) (location : LocationEnum),
      fetch_upcoming_milestones_from_event getPage location (some 0) =
        fetch_upcoming_milestones_from_event getPage location none := by
  intro getPage location
  simp [fetch_upcoming_milestones_from_event]
